import Mathlib

/-!
Verification of the video incident-analysis pipeline in
`backend/services/AI.py` (functions `analyze_video_with_polling_return_data`,
`extract_frames_with_comprehensive_output`, `create_comprehensive_analysis`,
`run_full_ai_analysis`).

The Python code is shallowly embedded: numeric conversions are carried out
over exact rationals/integers (matching the formulas in the source), the
remote model and the video decoder are abstracted as oracles supplied as
function arguments, filesystem writes are represented by the deterministic
name parameters the source builds the filenames from, and Python
exception/return control flow is represented with explicit `Except`/sum
types.
-/

namespace SafeEgypt

/-- Floor of a rational, computed on the numerator/denominator pair. -/
def ratFloor (q : ℚ) : ℤ := Int.fdiv q.num q.den

/-- Ceiling of a rational. -/
def ratCeil (q : ℚ) : ℤ := -(ratFloor (-q))

/-- Python `int(·)` applied to an exact rational value: truncation toward
zero (floor for nonnegative arguments, ceiling for negative ones). -/
def pyTrunc (q : ℚ) : ℤ := if 0 ≤ q then ratFloor q else ratCeil q

/-- Rounding a rational to the nearest integer (half rounds up; the tie
behaviour is irrelevant to every value considered here). -/
def roundInt (q : ℚ) : ℤ := ratFloor (q + 1 / 2)

/-- Python `round(x, 3)`: rounding to the nearest multiple of `1/1000`.
Mirrors `frame_time = round(event.get("suggested_frame_seconds", 0), 3)` in
`extract_frames_with_comprehensive_output`. -/
def round3 (q : ℚ) : ℚ := (roundInt (q * 1000) : ℚ) / 1000

/-- Frame index computation `frame_num = int(frame_time * fps)` (AI.py line
723), with `frame_time = round(suggested_frame_seconds, 3)`. -/
def frame_num (s fps : ℚ) : ℤ := pyTrunc (round3 s * fps)

/-- Normalized bounding box `[ymin, xmin, ymax, xmax]` in 0-1000 units,
the `box_2d` field of a detection returned by the model. -/
structure NormBox where
  ymin : ℤ
  xmin : ℤ
  ymax : ℤ
  xmax : ℤ
deriving Repr, DecidableEq, Inhabited

/-- Pixel-space bounding box after conversion and clamping. -/
structure PixBox where
  y1 : ℤ
  x1 : ℤ
  y2 : ℤ
  x2 : ℤ
deriving Repr, DecidableEq

/-- Pixel coordinate `int(coord / 1000 * dimension)` on the exact rational
value. -/
def toPix (c : ℤ) (dim : ℕ) : ℤ := pyTrunc ((c : ℚ) / 1000 * (dim : ℚ))

/-- AI.py lines 857-861: convert a normalized box to pixels and clamp to the
frame, i.e.
`abs_y1 = max(0, int(ymin / 1000 * height))`,
`abs_x1 = max(0, int(xmin / 1000 * width))`,
`abs_y2 = min(height, int(ymax / 1000 * height))`,
`abs_x2 = min(width, int(xmax / 1000 * width))`. -/
def pixelBox (b : NormBox) (height width : ℕ) : PixBox where
  y1 := max 0 (toPix b.ymin height)
  x1 := max 0 (toPix b.xmin width)
  y2 := min (height : ℤ) (toPix b.ymax height)
  x2 := min (width : ℤ) (toPix b.xmax width)

/-- AI.py line 864: `if abs_x2 > abs_x1 and abs_y2 > abs_y1` — the clamped
box is kept only when it has positive extent in both axes. -/
def boxValid (p : PixBox) : Bool := decide (p.x1 < p.x2) && decide (p.y1 < p.y2)

/-! ## Overload classification and the retry loop of
`analyze_video_with_polling_return_data` (AI.py lines 409-484) -/

/-- Check whether `pat` occurs at the head of `l` (character lists). -/
def leadMatch : List Char → List Char → Bool
  | [], _ => true
  | _ :: _, [] => false
  | a :: as, b :: bs => a == b && leadMatch as bs

/-- Python substring test `pat in l` on character lists. -/
def hasSub (pat : List Char) : List Char → Bool
  | [] => pat.isEmpty
  | b :: bs => leadMatch pat (b :: bs) || hasSub pat bs

/-- Overload / rate-limit indicator substrings checked by the code
(AI.py lines 441 and 462/611/807). -/
def overloadIndicators : List String :=
  ["overloaded", "quota", "rate limit", "503", "429", "resource exhausted", "unavailable"]

/-- Lower-casing of a string's characters, as in `str(e).lower()` (the
indicator substrings are plain ASCII). -/
def lowerChars (s : String) : List Char := s.data.map Char.toLower

/-- Python test
`any(indicator in error_str for indicator in [...])` applied to
`error_str = str(e).lower()`. -/
def isOverloadMsg (msg : String) : Bool :=
  overloadIndicators.any (fun ind => hasSub ind.data (lowerChars msg))

/-- Outcome of one attempt of the body of the retry loop: either both
`generate_content` calls succeed, or a `ClientError` is raised, or some
other exception is raised (AI.py lines 413-480). -/
inductive GenOutcome where
  | success : GenOutcome
  | clientErr : String → GenOutcome
  | otherErr : String → GenOutcome
deriving DecidableEq

/-- Result of running the retry loop to completion. -/
inductive RetryResult where
  | ok : RetryResult
  | sentinelNone : RetryResult
  | raised : String → RetryResult
deriving DecidableEq

/-- Trace of the retry loop: final result, the backoff waits slept (in
seconds, in order), and the number of attempts made. -/
structure RetryTrace where
  result : RetryResult
  waits : List ℕ
  attempts : ℕ
deriving DecidableEq

/-- Retry loop of `analyze_video_with_polling_return_data` (AI.py lines
413-480), starting at attempt number `attempt` out of `maxR`
(`for attempt in range(max_retries)`).  An overload-classified error waits
`(2 ** attempt) * 15` and retries (or returns the sentinel `None` on the last
attempt); a non-overload `ClientError` is re-raised immediately; a
non-overload generic exception waits `(2 ** attempt) * 10` and retries (or is
re-raised on the last attempt).  When the loop finishes with no attempt made
(`maxR ≤ attempt`), both responses are still `None` and the code falls
through to `return None` (AI.py lines 482-484). -/
def retryFrom (f : ℕ → GenOutcome) (maxR : ℕ) (attempt : ℕ) : RetryTrace :=
  if _h : attempt < maxR then
    match f attempt with
    | .success => ⟨.ok, [], 1⟩
    | .clientErr msg =>
      if isOverloadMsg msg then
        if attempt < maxR - 1 then
          let t := retryFrom f maxR (attempt + 1)
          ⟨t.result, 2 ^ attempt * 15 :: t.waits, t.attempts + 1⟩
        else ⟨.sentinelNone, [], 1⟩
      else ⟨.raised msg, [], 1⟩
    | .otherErr msg =>
      if isOverloadMsg msg then
        if attempt < maxR - 1 then
          let t := retryFrom f maxR (attempt + 1)
          ⟨t.result, 2 ^ attempt * 15 :: t.waits, t.attempts + 1⟩
        else ⟨.sentinelNone, [], 1⟩
      else
        if attempt < maxR - 1 then
          let t := retryFrom f maxR (attempt + 1)
          ⟨t.result, 2 ^ attempt * 10 :: t.waits, t.attempts + 1⟩
        else ⟨.raised msg, [], 1⟩
  else ⟨.sentinelNone, [], 0⟩
termination_by maxR - attempt

/-- Result of one remote call inside an attempt: a value, or an exception
(`isClient = true` for a `google.genai` `ClientError`). -/
inductive CallRes where
  | value : CallRes
  | err : Bool → String → CallRes
deriving DecidableEq

/-- Outcome of one attempt of the retry-loop body, given what the first
(`Incident` schema) and second (`TimeStampedEvent` list schema)
`generate_content` calls do on that attempt: the second call only runs if
the first returned; an exception from either is handled by the same
`except` clauses (AI.py lines 415-436). -/
def attemptOutcome (first second : ℕ → CallRes) (n : ℕ) : GenOutcome :=
  match first n with
  | .err true m => .clientErr m
  | .err false m => .otherErr m
  | .value =>
    match second n with
    | .err true m => .clientErr m
    | .err false m => .otherErr m
    | .value => .success

/-! ## Media-activation polling (AI.py lines 345-350) -/

/-- Polling loop `while myfile.state.name == "PROCESSING": sleep(15); refresh`.
`st k` is the state observed after `k` refreshes (`st 0` is the state right
after upload).  Returns the number of sleep-and-repoll cycles performed and
the state that ended the loop, or `none` if `fuel` observations were not
enough. -/
def pollFrom (st : ℕ → String) : ℕ → ℕ → Option (ℕ × String)
  | 0, _ => none
  | fuel + 1, k =>
    if st k = "PROCESSING" then pollFrom st fuel (k + 1)
    else some (k, st k)

/-! ## Whole-function control flow of `analyze_video_with_polling_return_data`
(success sentinel, propagation, and the `finally` cleanup, AI.py lines
332-508) -/

/-- Result of a Python expression or suite: a value, or a raised exception. -/
inductive Outcome (α : Type) where
  | ok : α → Outcome α
  | raised : String → Outcome α
deriving DecidableEq

/-- Semantics of `try: body finally: fin` when `fin` is a plain statement
suite with no `except` around it: if the `finally` suite raises, that
exception replaces the body's outcome (whether the body returned or
raised). -/
def pyTryFinally {α : Type} (body : Outcome α) (fin : Outcome Unit) : Outcome α :=
  match fin with
  | .ok _ => body
  | .raised e => .raised e

/-- Whole-function outcome of `analyze_video_with_polling_return_data`
together with whether `client.files.delete` was attempted.  The `finally`
suite (AI.py lines 503-508) runs `client.files.delete(name=myfile.name)` only
when `'myfile' in locals()` (the upload succeeded), and has no `try/except`
of its own around the delete call. -/
def analyzeWithCleanup {α : Type} (upload : Outcome Unit) (body : Outcome α)
    (deleteRes : Outcome Unit) : Outcome α × Bool :=
  match upload with
  | .raised e => (.raised e, false)
  | .ok _ => (pyTryFinally body deleteRes, true)

/-- Value-level outcome of the extraction, as a function of the retry loop's
result: `break` with both responses set returns the parsed incident data;
the sentinel path returns `None`; a re-raised exception propagates
(AI.py lines 436-498). -/
def analyzeReturn {D : Type} (t : RetryTrace) (payload : D) : Outcome (Option D) :=
  match t.result with
  | .ok => .ok (some payload)
  | .sentinelNone => .ok none
  | .raised e => .raised e

/-! ## Report assembly and `run_full_ai_analysis` (AI.py lines 938-1028) -/

/-- Result of `run_full_ai_analysis`: either the failure signal (the
function returns the empty string) or a comprehensive report. -/
inductive RunResult (D E : Type) where
  | failure : RunResult D E
  | report : D → List E → RunResult D E
deriving DecidableEq

/-- Function `create_comprehensive_analysis` (AI.py lines 938-951): an
empty/falsy incident dict yields the empty dict, otherwise the incident
fields are merged with `detected_events`. -/
def createComprehensive {D E : Type} (incident : Option D) (detected : List E) :
    Option (D × List E) :=
  match incident with
  | none => none
  | some d => some (d, detected)

/-- Control flow of `run_full_ai_analysis` (AI.py lines 978-1028): any
exception from step 1 is caught and turned into the failure signal `""`; a
falsy `incident_data` returns `""`; a missing `events_output.json` returns
`""`; otherwise the comprehensive report combining `incident_data` with the
detected events is returned. -/
def run_full {D E : Type} (analyzed : Outcome (Option D))
    (eventsFileWritten : Bool) (detected : List E) : RunResult D E :=
  match analyzed with
  | .raised _ => .failure
  | .ok none => .failure
  | .ok (some d) =>
    if eventsFileWritten then
      match createComprehensive (some d) detected with
      | none => .failure
      | some (d2, evs) => .report d2 evs
    else .failure

/-! ## Frame sampling, batched detection and rendering
(`extract_frames_with_comprehensive_output`, AI.py lines 691-935) -/

/-- Candidate event as read from `events_output.json` (the fields used by
`extract_frames_with_comprehensive_output`). -/
structure Event where
  event_type : String
  first_second : ℚ
  confidence : ℚ
  description : String
  suggested_frame_seconds : ℚ
deriving DecidableEq, Inhabited

/-- Decoded raw frame; of its pixel buffer only the shape
(`height, width = frame.shape[:2]`) is relevant to the pipeline logic. -/
structure Frame where
  height : ℕ
  width : ℕ
deriving DecidableEq, Inhabited

/-- Entry of `frame_meta` (AI.py lines 735-740): original event index,
rounded timestamp, raw frame, and the originating event. -/
structure Meta where
  idx : ℕ
  time : ℚ
  frame : Frame
  event : Event
deriving DecidableEq, Inhabited

/-- Sampling loop `for idx, event in enumerate(events)` (AI.py lines
721-740) starting at index `idx0`.  `video n` models
`cap.set(cv2.CAP_PROP_POS_FRAMES, n); ret, frame = cap.read()`: `none` is a
failed seek/read (the event is skipped with a logged warning and no frame
appended), `some f` the decoded frame. -/
def sampleFramesFrom (video : ℤ → Option Frame) (fps : ℚ) :
    ℕ → List Event → List Meta
  | _, [] => []
  | idx, ev :: rest =>
    match video (frame_num ev.suggested_frame_seconds fps) with
    | none => sampleFramesFrom video fps (idx + 1) rest
    | some f =>
      ⟨idx, round3 ev.suggested_frame_seconds, f, ev⟩ ::
        sampleFramesFrom video fps (idx + 1) rest

/-- Full sampling pass: `frame_meta` after the loop over all events. -/
def sampleFrames (video : ℤ → Option Frame) (fps : ℚ) (events : List Event) :
    List Meta :=
  sampleFramesFrom video fps 0 events

/-- Decidable test for whether an event's frame can be read. -/
def frameReadable (video : ℤ → Option Frame) (fps : ℚ) (ev : Event) : Bool :=
  (video (frame_num ev.suggested_frame_seconds fps)).isSome

/-- Enumeration `enumerate(l)` starting at `n`. -/
def enumFromN (n : ℕ) : List α → List (ℕ × α)
  | [] => []
  | a :: l => (n, a) :: enumFromN (n + 1) l

/-- Detection object of the model's JSON reply: `box_2d`, `type`,
`confidence` and the (possibly absent) `description`, read with
`det.get("description", ...)`. -/
structure Detection where
  box_2d : NormBox
  type : String
  confidence : ℚ
  description : Option String
deriving DecidableEq, Inhabited

/-- Per-image object of the model's JSON reply: `image_index` and the
detection list. -/
structure RawGroup where
  image_index : ℕ
  detections : List Detection
deriving DecidableEq, Inhabited

/-- Outcome of one batch after its inner retry loop (AI.py lines 786-835):
a successful parse of the reply, exhaustion of the retries on persistent
overload errors, or a non-retriable error re-raised out of the whole
function. -/
inductive BatchOutcome where
  | success : List RawGroup → BatchOutcome
  | exhausted : BatchOutcome
  | fatal : String → BatchOutcome
deriving DecidableEq

/-- Re-offsetting of the model's per-batch indices (AI.py lines 797-798):
`det_group["image_index"] += batch_start`. -/
def shiftGroups (off : ℕ) (gs : List RawGroup) : List RawGroup :=
  gs.map (fun g => ⟨g.image_index + off, g.detections⟩)

/-- Explicit empty detection groups appended for an exhausted batch
(AI.py lines 818-822): one entry `{"image_index": batch_start + i,
"detections": []}` per frame of the batch. -/
def emptyGroups (off k : ℕ) : List RawGroup :=
  (List.range k).map (fun i => ⟨off + i, []⟩)

/-- Batch loop `for batch_start in range(0, len(frame_list), batch_size)`
(AI.py lines 778-835) from start offset `bs` over `N` sampled frames with
batch size `B`.  `oracle bs` is the outcome of the batch starting at `bs`
(whose frames are `frame_list[bs : bs+B]`, of size `min B (N - bs)`).
Successful replies are index-shifted and appended; an exhausted batch
contributes explicit empty groups; a fatal error aborts the whole function.
The structural `fuel` argument only bounds the number of batches; since
every step advances `bs` by `B ≥ 1`, any `fuel ≥ N - bs` (in particular the
`fuel = N` used by `runBatches`) never runs out before the loop's own exit
condition `bs < N` fails, so the loop semantics is unchanged. -/
def runBatchesFrom (oracle : ℕ → BatchOutcome) (N B : ℕ) :
    ℕ → ℕ → Except String (List RawGroup)
  | 0, _ => .ok []
  | fuel + 1, bs =>
    if bs < N ∧ 0 < B then
      match oracle bs with
      | .fatal e => .error e
      | .exhausted =>
        (runBatchesFrom oracle N B fuel (bs + B)).map
          (fun tl => emptyGroups bs (min B (N - bs)) ++ tl)
      | .success gs =>
        (runBatchesFrom oracle N B fuel (bs + B)).map
          (fun tl => shiftGroups bs gs ++ tl)
    else .ok []

/-- Whole batch pass: `all_detections` after every batch was processed. -/
def runBatches (oracle : ℕ → BatchOutcome) (N B : ℕ) :
    Except String (List RawGroup) :=
  runBatchesFrom oracle N B N 0

/-- Conformance of a batch reply to the detection prompt: exactly one
object per input image of the batch, whose local `image_index` values are
the batch positions `0, ..., k-1` in some order. -/
def Conforming (oracle : ℕ → BatchOutcome) (N B : ℕ) : Prop :=
  ∀ bs, bs < N → ∀ gs, oracle bs = .success gs →
    (gs.map (fun g => g.image_index)).Perm (List.range (min B (N - bs)))

/-- Hazard entry accumulated into `detected_hazards`
(AI.py lines 903-907). -/
structure Hazard where
  type : String
  description : String
  confidence : ℚ
deriving DecidableEq, Inhabited

/-- Deterministic name parameters of a saved crop file
`event_{idx+1}_at_{time}s_{type}_det{det_idx+1}_conf{conf}.jpg`
(AI.py lines 889-892). -/
structure CropName where
  eventIdx : ℕ
  time : ℚ
  dtype : String
  detIdx : ℕ
  confidence : ℚ
deriving DecidableEq, Inhabited

/-- Deterministic name parameters of a saved annotated scene file
`scene_event_{idx+1}_at_{time}s.jpg` (AI.py lines 912-915). -/
structure SceneName where
  eventIdx : ℕ
  time : ℚ
deriving DecidableEq, Inhabited

/-- Per-frame accumulators of the detection loop (AI.py lines 852-854):
`detected_hazards`, `person_attributes`, `detected_elements_paths`. -/
structure RenderAcc where
  detected_hazards : List Hazard
  person_attributes : List String
  detected_elements_paths : List CropName
deriving DecidableEq, Inhabited

/-- Detection loop `for det_idx, det in enumerate(det_group["detections"])`
(AI.py lines 856-909) with `det_idx` starting at `di`, over a frame of the
given height/width, for the event with original index `evIdx` at timestamp
`t`.  A detection whose clamped pixel box is degenerate contributes nothing;
a valid one first has its crop saved, then is categorized: `"person"` into
`person_attributes` (its description, defaulting to `"Person detected"`),
anything else into `detected_hazards` with `{type, description, confidence}`
(description defaulting to `""`).  The recursion prepends each detection's
contributions, matching the loop's in-order appends. -/
def renderDetsFrom (height width evIdx : ℕ) (t : ℚ) :
    ℕ → List Detection → RenderAcc
  | _, [] => ⟨[], [], []⟩
  | di, d :: rest =>
    let acc := renderDetsFrom height width evIdx t (di + 1) rest
    if boxValid (pixelBox d.box_2d height width) then
      if d.type = "person" then
        ⟨acc.detected_hazards,
         d.description.getD ("Person detected") :: acc.person_attributes,
         ⟨evIdx + 1, t, d.type, di + 1, d.confidence⟩ ::
           acc.detected_elements_paths⟩
      else
        ⟨⟨d.type, d.description.getD (""), d.confidence⟩ ::
           acc.detected_hazards,
         acc.person_attributes,
         ⟨evIdx + 1, t, d.type, di + 1, d.confidence⟩ ::
           acc.detected_elements_paths⟩
    else acc

/-- Full detection loop over one frame's detection group. -/
def renderDets (height width evIdx : ℕ) (t : ℚ) (dets : List Detection) :
    RenderAcc :=
  renderDetsFrom height width evIdx t 0 dets

/-- Enhanced event dict built for one in-range detection group
(AI.py lines 919-929). -/
structure EnhancedEvent where
  event_type : String
  first_second : ℚ
  confidence : ℚ
  description : String
  suggested_frame_seconds : ℚ
  detected_hazards : List Hazard
  person_attributes : List String
  image_path : SceneName
  detected_elements_paths : List CropName
deriving DecidableEq, Inhabited

/-- Enhanced event built from one frame's metadata and its detection group
(AI.py lines 843-929): the detection loop runs over the frame's dimensions,
the scene image is written, and the original event's fields are copied. -/
def renderGroup (fi : Meta) (g : RawGroup) : EnhancedEvent :=
  let acc := renderDets fi.frame.height fi.frame.width fi.idx fi.time
    g.detections
  { event_type := fi.event.event_type
    first_second := fi.event.first_second
    confidence := fi.event.confidence
    description := fi.event.description
    suggested_frame_seconds := fi.event.suggested_frame_seconds
    detected_hazards := acc.detected_hazards
    person_attributes := acc.person_attributes
    image_path := ⟨fi.idx + 1, fi.time⟩
    detected_elements_paths := acc.detected_elements_paths }

/-- Rendering loop `for det_group in all_detections` (AI.py lines 838-931):
a group whose `image_index` is out of range of `frame_meta` is skipped by
`continue` before any frame access; an in-range group produces exactly one
enhanced event from `frame_meta[image_index]`. -/
def renderAll (metas : List Meta) : List RawGroup → List EnhancedEvent
  | [] => []
  | g :: gs =>
    if g.image_index < metas.length then
      renderGroup (metas.getD g.image_index default) g :: renderAll metas gs
    else renderAll metas gs

/-- Concrete detection used to evaluate Scenario B. -/
def detB : Detection :=
  { box_2d := ⟨100, 100, 900, 900⟩
    type := ("fire")
    confidence := 1
    description := some ("flame") }

/-- Concrete events for the C7 witness. -/
def ev0 : Event := ⟨("fire"), 1, 1, ("d0"), 2⟩

/-- Second concrete event for the C7 witness. -/
def ev1 : Event := ⟨("spill"), 3, 1, ("d1"), 4⟩

/-- Constant video oracle for the C7 witness: every seek reads a 10x20
frame. -/
def vid2 : ℤ → Option Frame := fun _ => some ⟨10, 20⟩

/-! ## Numeric lemmas -/

theorem ratFloor_eq_floor (q : ℚ) : ratFloor q = ⌊q⌋ := by
  rw [ratFloor, Int.fdiv_eq_ediv _ (by positivity), Rat.floor_def]

theorem ratCeil_eq_ceil (q : ℚ) : ratCeil q = ⌈q⌉ := by
  rw [ratCeil, ratFloor_eq_floor, Int.floor_neg, neg_neg]

theorem pyTrunc_intCast (n : ℤ) : pyTrunc ((n : ℚ)) = n := by
  rw [pyTrunc]
  rcases le_or_lt 0 n with h | h
  · rw [if_pos (by exact_mod_cast h), ratFloor_eq_floor, Int.floor_intCast]
  · rw [if_neg (by exact_mod_cast not_le.mpr h), ratCeil_eq_ceil, Int.ceil_intCast]

theorem pyTrunc_natCast (n : ℕ) : pyTrunc ((n : ℚ)) = n := by
  exact_mod_cast pyTrunc_intCast (n : ℤ)

theorem toPix_eval (c : ℤ) (dim : ℕ) (r : ℤ) (h : (c : ℚ) / 1000 * (dim : ℚ) = (r : ℚ)) :
    toPix c dim = r := by
  rw [toPix, h, pyTrunc_intCast]

theorem round3_natCast (n : ℕ) : round3 ((n : ℚ)) = (n : ℚ) := by
  have h1 : ((n : ℚ) * 1000) = (((n * 1000 : ℕ) : ℤ) : ℚ) := by push_cast; ring
  have h2 : roundInt ((n : ℚ) * 1000) = ((n * 1000 : ℕ) : ℤ) := by
    rw [roundInt, h1, ratFloor_eq_floor]
    rw [Int.floor_int_add]
    norm_num
  rw [round3, h2]
  push_cast
  field_simp

/-! ## Claim theorems: FrameSampler arithmetic (C6) -/

/-- C6: the frame sampler computes
`frame_index = int(round(suggested_frame_seconds, 3) * fps)`; for
whole-second timestamps and an integer frame rate this is exactly
`seconds * fps`, and in particular fps=30 with
`suggested_frame_seconds = 2.000` targets frame index 60. -/
theorem c6_frame_index_formula :
    (∀ s fps : ℕ, frame_num ((s : ℚ)) ((fps : ℚ)) = ((s * fps : ℕ) : ℤ)) ∧
      frame_num ((2 : ℕ) : ℚ) (((30 : ℕ)) : ℚ) = 60 := by
  have key : ∀ s fps : ℕ, frame_num ((s : ℚ)) ((fps : ℚ)) = ((s * fps : ℕ) : ℤ) := by
    intro s fps
    rw [frame_num, round3_natCast]
    have h : ((s : ℚ)) * ((fps : ℚ)) = (((s * fps : ℕ) : ℤ) : ℚ) := by push_cast; ring
    rw [h, pyTrunc_intCast]
  refine ⟨key, ?_⟩
  rw [key 2 30]
  norm_num

/-! ## Claim theorems: pixel conversion of Scenario B (C3) -/

/-- Evaluation of the pixel conversion on the box `[100,100,900,900]`
against a frame of height 1000 and width 2000. -/
theorem pixelBox_b_eval :
    pixelBox ⟨100, 100, 900, 900⟩ 1000 2000 = ⟨100, 200, 900, 1800⟩ := by
  have h1 : toPix 100 1000 = 100 := toPix_eval _ _ _ (by norm_num)
  have h2 : toPix 100 2000 = 200 := toPix_eval _ _ _ (by norm_num)
  have h3 : toPix 900 1000 = 900 := toPix_eval _ _ _ (by norm_num)
  have h4 : toPix 900 2000 = 1800 := toPix_eval _ _ _ (by norm_num)
  simp only [pixelBox, h1, h2, h3, h4]
  refine PixBox.mk.injEq .. ▸ ?_
  norm_num

/-- C3 counterexample: on a frame of height 1000 and width 2000, the box
`[100,100,900,900]` does NOT convert to the pixel box
`(y1=200, x1=200, y2=1800, x2=1800)` claimed by the spec: the y
coordinates are scaled by the height 1000, giving `y1=100, y2=900`. -/
theorem c3_counterexample :
    pixelBox ⟨100, 100, 900, 900⟩ 1000 2000 ≠ ⟨200, 200, 1800, 1800⟩ := by
  rw [pixelBox_b_eval]
  decide

/-- C3 amended: for `box_2d=[100,100,900,900]` on a frame of height 1000 and
width 2000, the conversion `abs = coord/1000 * dimension` with clamping
yields the pixel box `(y1=100, x1=200, y2=900, x2=1800)` (the y
coordinates scale by the height 1000, the x coordinates by the width 2000),
which is non-degenerate, so the detection's crop is produced and saved. -/
theorem c3_amended_pixel_box :
    pixelBox ⟨100, 100, 900, 900⟩ 1000 2000 = ⟨100, 200, 900, 1800⟩ ∧
      boxValid (pixelBox ⟨100, 100, 900, 900⟩ 1000 2000) = true ∧
      (renderDets 1000 2000 0 0 [detB]).detected_elements_paths =
        [⟨1, 0, ("fire"), 1, 1⟩] := by
  have hv : boxValid (pixelBox detB.box_2d 1000 2000) = true := by
    show boxValid (pixelBox ⟨100, 100, 900, 900⟩ 1000 2000) = true
    rw [pixelBox_b_eval]
    decide
  refine ⟨pixelBox_b_eval, by rw [pixelBox_b_eval]; decide, ?_⟩
  have hty : (detB.type = ("person")) = False := by
    simp [detB]
  simp only [renderDets, renderDetsFrom, hv, if_true, hty, if_false]
  simp [detB]

/-! ## Claim theorems: media-activation polling (C9) -/

/-- C9: if the media-status poll observes "PROCESSING" twice and then
"ACTIVE", exactly two sleep-and-repoll cycles happen before the loop exits
with the "ACTIVE" state; and in general the loop never exits (so generation
is never issued) while the most recently observed state is "PROCESSING". -/
theorem c9_poll_cycles (st : ℕ → String) (fuel : ℕ)
    (h0 : st 0 = ("PROCESSING")) (h1 : st 1 = ("PROCESSING"))
    (h2 : st 2 = ("ACTIVE")) (hf : 3 ≤ fuel) :
    pollFrom st fuel 0 = some (2, ("ACTIVE")) ∧
      ∀ (st2 : ℕ → String) (fuel2 k j : ℕ) (s : String),
        pollFrom st2 fuel2 k = some (j, s) → s ≠ ("PROCESSING") := by
  constructor
  · obtain ⟨f, rfl⟩ : ∃ f, fuel = f + 3 := ⟨fuel - 3, by omega⟩
    show pollFrom st (f + 3) 0 = some (2, ("ACTIVE"))
    rw [pollFrom, if_pos h0, pollFrom, if_pos h1, pollFrom, if_neg (by rw [h2]; decide), h2]
  · intro st2 fuel2 k j s h
    induction fuel2 generalizing k j with
    | zero => simp [pollFrom] at h
    | succ f ih =>
      rw [pollFrom] at h
      by_cases hp : st2 k = ("PROCESSING")
      · rw [if_pos hp] at h
        exact ih k.succ j h
      · rw [if_neg hp] at h
        simp only [Option.some.injEq, Prod.mk.injEq] at h
        obtain ⟨hj, hs⟩ := h
        rw [hs] at hp
        exact hp

/-- C9 witness. -/
theorem c9_poll_cycles_witness :
    pollFrom (fun k => if k < 2 then ("PROCESSING") else ("ACTIVE")) 5 0 =
      some (2, ("ACTIVE")) :=
  (c9_poll_cycles (fun k => if k < 2 then ("PROCESSING") else ("ACTIVE")) 5
    (by decide) (by decide) (by decide) (by decide)).1

/-! ## Claim theorems: cleanup in the `finally` suite (C5) -/

/-- C5 counterexample: with the upload and the extraction body both
successful, the function's outcome DOES depend on whether the
`client.files.delete` call in the `finally` suite succeeds: a raised
deletion error replaces the returned value, because the `finally` suite has
no `try/except` of its own. -/
theorem c5_counterexample :
    (analyzeWithCleanup (Outcome.ok ()) (Outcome.ok (some (0 : ℕ)))
        (Outcome.raised ("delete failed"))).1 ≠
      (analyzeWithCleanup (Outcome.ok ()) (Outcome.ok (some (0 : ℕ)))
        (Outcome.ok ())).1 := by
  decide

/-- C5 amended: once the upload has succeeded, the deletion is always
attempted — also when the body raises — and a successful deletion leaves the
body's outcome unchanged; but a deletion failure is not merely logged: it
propagates and replaces the run's reported outcome.  When the upload itself
failed there is no media handle and no deletion is attempted. -/
theorem c5_amended_cleanup {α : Type} (body : Outcome α) (delRes : Outcome Unit) :
    (analyzeWithCleanup (Outcome.ok ()) body delRes).2 = true ∧
      (delRes = Outcome.ok () →
        (analyzeWithCleanup (Outcome.ok ()) body delRes).1 = body) ∧
      (∀ e, delRes = Outcome.raised e →
        (analyzeWithCleanup (Outcome.ok ()) body delRes).1 = Outcome.raised e) ∧
      (∀ e, (analyzeWithCleanup (Outcome.raised e) body delRes).2 = false) := by
  refine ⟨rfl, ?_, ?_, fun e => rfl⟩
  · intro h
    subst h
    rfl
  · intro e h
    subst h
    rfl

/-- C5 witness: a raised extraction body still has the deletion attempted,
and a failing deletion replaces the outcome. -/
theorem c5_amended_cleanup_witness :
    (analyzeWithCleanup (Outcome.ok ()) (Outcome.raised ("api error") : Outcome (Option ℕ))
        (Outcome.raised ("delete failed"))).2 = true ∧
      (analyzeWithCleanup (Outcome.ok ()) (Outcome.raised ("api error") : Outcome (Option ℕ))
        (Outcome.raised ("delete failed"))).1 = Outcome.raised ("delete failed") :=
  ⟨(c5_amended_cleanup (Outcome.raised ("api error") : Outcome (Option ℕ))
      (Outcome.raised ("delete failed"))).1,
    (c5_amended_cleanup (Outcome.raised ("api error") : Outcome (Option ℕ))
      (Outcome.raised ("delete failed"))).2.2.1 ("delete failed") rfl⟩

/-! ## Claim theorems: retry exhaustion in the incident extraction (C2, C4) -/

/-- C2: with `max_retries = 3` and every attempt raising a `ClientError`
whose message matches an overload/quota signature, exactly 3 attempts are
made, the two waits between attempts are `2^0*15` and `2^1*15` seconds
(strictly increasing), and the loop ends in the sentinel `None` rather than
raising. -/
theorem c2_retry_exhaustion (f : ℕ → GenOutcome)
    (h : ∀ n, ∃ m, f n = GenOutcome.clientErr m ∧ isOverloadMsg m = true) :
    retryFrom f 3 0 = ⟨RetryResult.sentinelNone, [15, 30], 3⟩ ∧
      (retryFrom f 3 0).waits = [2 ^ 0 * 15, 2 ^ 1 * 15] ∧
      List.Chain' (· < ·) (retryFrom f 3 0).waits := by
  obtain ⟨m0, hf0, ho0⟩ := h 0
  obtain ⟨m1, hf1, ho1⟩ := h 1
  obtain ⟨m2, hf2, ho2⟩ := h 2
  have e2 : retryFrom f 3 2 = ⟨RetryResult.sentinelNone, [], 1⟩ := by
    rw [retryFrom, hf2]
    simp [ho2]
  have e1 : retryFrom f 3 1 = ⟨RetryResult.sentinelNone, [30], 2⟩ := by
    rw [retryFrom, hf1]
    simp [ho1, e2]
  have e0 : retryFrom f 3 0 = ⟨RetryResult.sentinelNone, [15, 30], 3⟩ := by
    rw [retryFrom, hf0]
    simp [ho0, e1]
  refine ⟨e0, ?_, ?_⟩
  · rw [e0]
    decide
  · rw [e0]
    simp [List.chain'_cons]

/-- C2 witness. -/
theorem c2_retry_exhaustion_witness :
    retryFrom (fun _ => GenOutcome.clientErr ("quota exceeded")) 3 0 =
      ⟨RetryResult.sentinelNone, [15, 30], 3⟩ :=
  (c2_retry_exhaustion (fun _ => GenOutcome.clientErr ("quota exceeded"))
    (fun _ => ⟨("quota exceeded"), rfl, by decide⟩)).1

/-- Exhaustion lemma: if every attempt of the retry-loop body raises an
overload-classified error (of either exception class), the loop's final
result is the sentinel, whatever the retry budget. -/
theorem retry_overload_result (f : ℕ → GenOutcome)
    (h : ∀ n, ∃ m, (f n = GenOutcome.clientErr m ∨ f n = GenOutcome.otherErr m) ∧
      isOverloadMsg m = true) (maxR : ℕ) :
    ∀ attempt, (retryFrom f maxR attempt).result = RetryResult.sentinelNone := by
  suffices H : ∀ k attempt, maxR - attempt ≤ k →
      (retryFrom f maxR attempt).result = RetryResult.sentinelNone by
    exact fun attempt => H (maxR - attempt) attempt le_rfl
  intro k
  induction k with
  | zero =>
    intro attempt hk
    rw [retryFrom, dif_neg (by omega)]
  | succ k ih =>
    intro attempt hk
    by_cases hlt : attempt < maxR
    · obtain ⟨m, hm, ho⟩ := h attempt
      by_cases hlast : attempt < maxR - 1
      · rcases hm with hm | hm <;>
          · rw [retryFrom, dif_pos hlt, hm]
            simp only [ho, if_true, if_pos hlast]
            exact ih (attempt + 1) (by omega)
      · rcases hm with hm | hm <;>
          · rw [retryFrom, dif_pos hlt, hm]
            simp [ho, hlast]
    · rw [retryFrom, dif_neg hlt]

/-- C4: when every retry attempt ends with one of the two
structured-generation calls raising an overload-classified error (so the
loop exhausts), the extraction returns the sentinel `None`, and
`run_full_ai_analysis` returns the failure signal — no comprehensive report
is produced or handed onward. -/
theorem c4_extraction_failure_aborts_run (first second : ℕ → CallRes)
    (h : ∀ n, ∃ m,
      (attemptOutcome first second n = GenOutcome.clientErr m ∨
        attemptOutcome first second n = GenOutcome.otherErr m) ∧
      isOverloadMsg m = true)
    (maxR : ℕ) (payload : ℕ) (fileWritten : Bool) (detected : List ℕ) :
    analyzeReturn (retryFrom (attemptOutcome first second) maxR 0) payload =
        Outcome.ok none ∧
      run_full (analyzeReturn (retryFrom (attemptOutcome first second) maxR 0) payload)
          fileWritten detected = RunResult.failure ∧
      ∀ d evs,
        run_full (analyzeReturn (retryFrom (attemptOutcome first second) maxR 0) payload)
          fileWritten detected ≠ RunResult.report d evs := by
  have hr := retry_overload_result (attemptOutcome first second) h maxR 0
  have h1 : analyzeReturn (retryFrom (attemptOutcome first second) maxR 0) payload =
      Outcome.ok none := by
    unfold analyzeReturn
    rw [hr]
  refine ⟨h1, ?_, ?_⟩
  · rw [h1]
    rfl
  · rw [h1]
    intro d evs hcon
    exact absurd hcon (by simp [run_full])

/-- C4 witness: the first call succeeds every attempt but the second always
raises a quota error; the run fails with no report. -/
theorem c4_extraction_failure_witness :
    run_full
        (analyzeReturn
          (retryFrom
            (attemptOutcome (fun _ => CallRes.value)
              (fun _ => CallRes.err true ("quota exceeded"))) 3 0) (0 : ℕ))
        true ([] : List ℕ) = RunResult.failure :=
  (c4_extraction_failure_aborts_run (fun _ => CallRes.value)
    (fun _ => CallRes.err true ("quota exceeded"))
    (fun _ => ⟨("quota exceeded"), Or.inl rfl, by decide⟩) 3 0 true []).2.1

/-! ## Claim theorems: per-detection classification (C8) and out-of-range
detection groups (C10) -/

/-- Characterization of the detection loop from any starting `det_idx`. -/
theorem renderDetsFrom_eq (height width evIdx : ℕ) (t : ℚ) :
    ∀ (dets : List Detection) (di : ℕ),
      renderDetsFrom height width evIdx t di dets =
        ⟨((enumFromN di dets).filter (fun p =>
            boxValid (pixelBox p.2.box_2d height width) && !(p.2.type == ("person")))).map
            (fun p => ⟨p.2.type, p.2.description.getD (""), p.2.confidence⟩),
          ((enumFromN di dets).filter (fun p =>
            boxValid (pixelBox p.2.box_2d height width) && (p.2.type == ("person")))).map
            (fun p => p.2.description.getD ("Person detected")),
          ((enumFromN di dets).filter (fun p =>
            boxValid (pixelBox p.2.box_2d height width))).map
            (fun p => ⟨evIdx + 1, t, p.2.type, p.1 + 1, p.2.confidence⟩)⟩ := by
  intro dets
  induction dets with
  | nil =>
    intro di
    simp [renderDetsFrom, enumFromN]
  | cons d rest ih =>
    intro di
    rw [renderDetsFrom, ih (di + 1)]
    by_cases hv : boxValid (pixelBox d.box_2d height width) = true
    · by_cases hp : d.type = ("person")
      · simp [enumFromN, List.filter_cons, hv, hp]
      · simp [enumFromN, List.filter_cons, hv, hp]
    · simp only [Bool.not_eq_true] at hv
      simp [enumFromN, List.filter_cons, hv]

/-- C8: in a frame's detection group, a detection whose clamped pixel box is
degenerate produces no crop and counts toward neither `detected_hazards` nor
`person_attributes`; a valid detection of type "person" contributes its
free-text description to `person_attributes`, and a valid detection of any
other type contributes a `{type, description, confidence}` entry to
`detected_hazards`; every valid detection (and only those) gets a crop
file. -/
theorem c8_detection_classification (height width evIdx : ℕ) (t : ℚ)
    (dets : List Detection) :
    (renderDets height width evIdx t dets).detected_hazards =
        ((enumFromN 0 dets).filter (fun p =>
          boxValid (pixelBox p.2.box_2d height width) && !(p.2.type == ("person")))).map
          (fun p => ⟨p.2.type, p.2.description.getD (""), p.2.confidence⟩) ∧
      (renderDets height width evIdx t dets).person_attributes =
        ((enumFromN 0 dets).filter (fun p =>
          boxValid (pixelBox p.2.box_2d height width) && (p.2.type == ("person")))).map
          (fun p => p.2.description.getD ("Person detected")) ∧
      (renderDets height width evIdx t dets).detected_elements_paths =
        ((enumFromN 0 dets).filter (fun p =>
          boxValid (pixelBox p.2.box_2d height width))).map
          (fun p => ⟨evIdx + 1, t, p.2.type, p.1 + 1, p.2.confidence⟩) := by
  rw [renderDets, renderDetsFrom_eq]
  exact ⟨rfl, rfl, rfl⟩

/-- C10: a detection group whose `image_index` is at or beyond the number of
sampled frames is skipped whole by the `continue` guard before any access to
`frame_meta`: it produces no crop, no annotated scene image and no enhanced
event, no exception is raised, and the remaining groups are unaffected. -/
theorem c10_out_of_range_group_dropped (metas : List Meta) (g : RawGroup)
    (gs : List RawGroup) (h : metas.length ≤ g.image_index) :
    renderAll metas (g :: gs) = renderAll metas gs := by
  rw [renderAll, if_neg (by omega)]

/-- C10 witness: one sampled frame, a group with `image_index = 5`. -/
theorem c10_out_of_range_witness :
    renderAll [default] [⟨5, []⟩, ⟨0, []⟩] = renderAll [default] [⟨0, []⟩] :=
  c10_out_of_range_group_dropped [default] ⟨5, []⟩ [⟨0, []⟩] (by decide)

/-! ## Claim theorems: batch coverage of the detection pass (C1) -/

theorem shiftGroups_map_index (off : ℕ) (gs : List RawGroup) :
    (shiftGroups off gs).map (fun g => g.image_index) =
      (gs.map (fun g => g.image_index)).map (fun i => i + off) := by
  simp [shiftGroups, List.map_map, Function.comp]

theorem emptyGroups_map_index (off k : ℕ) :
    (emptyGroups off k).map (fun g => g.image_index) = List.range' off k := by
  simp [emptyGroups, List.map_map, Function.comp, List.range'_eq_map_range]

theorem range'_cover (bs N B : ℕ) (_hbs : bs < N) (_hB : 0 < B) :
    List.range' bs (min B (N - bs)) ++ List.range' (bs + B) (N - (bs + B)) =
      List.range' bs (N - bs) := by
  rcases le_or_lt (bs + B) N with h | h
  · have hmin : min B (N - bs) = B := by omega
    rw [hmin]
    have hx := List.range'_append bs B (N - (bs + B)) 1
    simpa [Nat.one_mul, show N - (bs + B) + B = N - bs by omega] using hx
  · have hmin : min B (N - bs) = N - bs := by omega
    have h0 : N - (bs + B) = 0 := by omega
    rw [hmin, h0]
    simp

/-- Main invariant of the batch loop: from any start offset, a completed run
covers each remaining dense frame index exactly once. -/
theorem runBatchesFrom_ok_perm (oracle : ℕ → BatchOutcome) (N B : ℕ) (hB : 0 < B)
    (hconf : Conforming oracle N B) :
    ∀ fuel bs, N - bs ≤ fuel → ∀ out,
      runBatchesFrom oracle N B fuel bs = Except.ok out →
      (out.map (fun g => g.image_index)).Perm (List.range' bs (N - bs)) := by
  intro fuel
  induction fuel with
  | zero =>
    intro bs hk out hrun
    rw [runBatchesFrom] at hrun
    injection hrun with hout
    subst hout
    simp [show N - bs = 0 by omega]
  | succ k ih =>
    intro bs hk out hrun
    by_cases hbs : bs < N
    · rw [runBatchesFrom, if_pos ⟨hbs, hB⟩] at hrun
      cases horacle : oracle bs with
      | fatal e =>
        rw [horacle] at hrun
        simp at hrun
      | exhausted =>
        rw [horacle] at hrun
        cases hrec : runBatchesFrom oracle N B k (bs + B) with
        | error e =>
          rw [hrec] at hrun
          simp [Except.map] at hrun
        | ok tl =>
          rw [hrec] at hrun
          simp only [Except.map, Except.ok.injEq] at hrun
          subst hrun
          have htl := ih (bs + B) (by omega) tl hrec
          rw [List.map_append, emptyGroups_map_index]
          exact range'_cover bs N B hbs hB ▸ List.Perm.append_left _ htl
      | success gs =>
        rw [horacle] at hrun
        cases hrec : runBatchesFrom oracle N B k (bs + B) with
        | error e =>
          rw [hrec] at hrun
          simp [Except.map] at hrun
        | ok tl =>
          rw [hrec] at hrun
          simp only [Except.map, Except.ok.injEq] at hrun
          subst hrun
          have htl := ih (bs + B) (by omega) tl hrec
          have hgs := hconf bs hbs gs horacle
          have hshift : ((shiftGroups bs gs).map (fun g => g.image_index)).Perm
              (List.range' bs (min B (N - bs))) := by
            rw [shiftGroups_map_index]
            have hmap := hgs.map (fun i => i + bs)
            have hre : (List.range (min B (N - bs))).map (fun i => i + bs) =
                List.range' bs (min B (N - bs)) := by
              rw [List.range'_eq_map_range]
              exact List.map_congr_left (fun i _ => Nat.add_comm i bs)
            exact hre ▸ hmap
          rw [List.map_append]
          exact range'_cover bs N B hbs hB ▸ hshift.append htl
    · rw [runBatchesFrom, if_neg (by omega)] at hrun
      injection hrun with hout
      subst hout
      simp [show N - bs = 0 by omega]

/-- C1: under replies that conform to the detection prompt (one object per
batch image, local indices `0..k-1` in some order), a completed batch pass
over `N` sampled frames returns exactly `N` detection-group entries whose
dense frame indices are exactly `0..N-1`, each occurring once; and a batch
whose retries are exhausted contributes explicit empty detection lists with
indices `batch_start + i` for each of its frames, after which processing
continues with the next batch. -/
theorem c1_batch_detector_coverage (oracle : ℕ → BatchOutcome) (N B : ℕ)
    (hB : 0 < B) (hconf : Conforming oracle N B) :
    (∀ out, runBatches oracle N B = Except.ok out →
        out.length = N ∧
          (out.map (fun g => g.image_index)).Perm (List.range N)) ∧
      (∀ fuel bs, bs < N → oracle bs = BatchOutcome.exhausted →
        ∀ out2, runBatchesFrom oracle N B (fuel + 1) bs = Except.ok out2 →
          ∃ tl, out2 = emptyGroups bs (min B (N - bs)) ++ tl ∧
            runBatchesFrom oracle N B fuel (bs + B) = Except.ok tl) := by
  constructor
  · intro out hrun
    have hperm := runBatchesFrom_ok_perm oracle N B hB hconf N 0 (by omega) out hrun
    rw [Nat.sub_zero] at hperm
    constructor
    · have hl := hperm.length_eq
      simpa using hl
    · rw [List.range_eq_range']
      exact hperm
  · intro fuel bs hbs hex out2 hrun
    rw [runBatchesFrom, if_pos ⟨hbs, hB⟩, hex] at hrun
    cases hrec : runBatchesFrom oracle N B fuel (bs + B) with
    | error e =>
      rw [hrec] at hrun
      simp [Except.map] at hrun
    | ok tl =>
      rw [hrec] at hrun
      simp only [Except.map, Except.ok.injEq] at hrun
      exact ⟨tl, hrun.symm, rfl⟩

/-- C1 witness: three sampled frames, batch size 2; the first batch succeeds
with its two local indices out of order, the second batch is exhausted. -/
theorem c1_batch_detector_witness :
    ([⟨1, []⟩, ⟨0, []⟩, ⟨2, []⟩] : List RawGroup).length = 3 ∧
      (([⟨1, []⟩, ⟨0, []⟩, ⟨2, []⟩] : List RawGroup).map
        (fun g => g.image_index)).Perm (List.range 3) :=
  (c1_batch_detector_coverage
    (fun bs => if bs = 0 then BatchOutcome.success [⟨1, []⟩, ⟨0, []⟩]
      else BatchOutcome.exhausted) 3 2 (by decide)
    (by
      intro bs hbs gs hgs
      interval_cases bs
      · simp at hgs
        subst hgs
        decide
      · simp at hgs
      · simp at hgs)).1
    [⟨1, []⟩, ⟨0, []⟩, ⟨2, []⟩] rfl

/-! ## Claim theorems: skipped events, dense renumbering and one enhanced
event per surviving frame (C7) -/

/-- Characterization of the sampling loop: it keeps exactly the events whose
frame could be read, in the original order, carrying their original
indices. -/
theorem sampleFramesFrom_eq (video : ℤ → Option Frame) (fps : ℚ) :
    ∀ (events : List Event) (idx0 : ℕ),
      sampleFramesFrom video fps idx0 events =
        ((enumFromN idx0 events).filter (fun p => frameReadable video fps p.2)).map
          (fun p => ⟨p.1, round3 p.2.suggested_frame_seconds,
            (video (frame_num p.2.suggested_frame_seconds fps)).getD default, p.2⟩) := by
  intro events
  induction events with
  | nil =>
    intro idx0
    simp [sampleFramesFrom, enumFromN]
  | cons ev rest ih =>
    intro idx0
    cases hv : video (frame_num ev.suggested_frame_seconds fps) with
    | none =>
      rw [sampleFramesFrom, hv]
      simp [enumFromN, List.filter_cons, frameReadable, hv, ih (idx0 + 1)]
    | some f =>
      rw [sampleFramesFrom, hv]
      simp [enumFromN, List.filter_cons, frameReadable, hv, ih (idx0 + 1)]

/-- Mapping a function over a list through position lookups. -/
theorem range_map_getD {α β : Type} [Inhabited α] (l : List α) (f : α → β) :
    (List.range l.length).map (fun i => f (l.getD i default)) = l.map f := by
  induction l with
  | nil => simp
  | cons a t ih =>
    rw [List.length_cons, List.range_succ_eq_map]
    simp only [List.map_cons, List.map_map, List.getD_cons_zero, List.map]
    refine congrArg (f a :: ·) ?_
    rw [← ih]
    refine List.map_congr_left ?_
    intro i _
    simp [Function.comp, List.getD_cons_succ]

/-- When every group's index is in range, the rendering loop produces
exactly one enhanced event per group. -/
theorem renderAll_all_in_range (metas : List Meta) :
    ∀ (groups : List RawGroup), (∀ g ∈ groups, g.image_index < metas.length) →
      renderAll metas groups =
        groups.map (fun g => renderGroup (metas.getD g.image_index default) g) := by
  intro groups
  induction groups with
  | nil => intro _; rfl
  | cons g gs ih =>
    intro h
    rw [renderAll, if_pos (h g (by simp)), ih (fun x hx => h x (by simp [hx]))]
    rfl

/-- C7: an event whose frame seek/read fails is skipped entirely — it
contributes no sampled frame, the remaining events keep their original
order, and the survivors are densely renumbered by list position; and under
conforming detection replies over the surviving frames, the rendering pass
produces exactly one enhanced event per surviving event (witnessed by the
scene names carrying each survivor's original index exactly once). -/
theorem c7_skip_and_density (video : ℤ → Option Frame) (fps : ℚ)
    (events : List Event) (oracle : ℕ → BatchOutcome) (B : ℕ) (hB : 0 < B)
    (hconf : Conforming oracle (sampleFrames video fps events).length B) :
    ((sampleFrames video fps events).map (fun m => (m.idx, m.event)) =
        (enumFromN 0 events).filter (fun p => frameReadable video fps p.2)) ∧
      ∀ out, runBatches oracle (sampleFrames video fps events).length B =
          Except.ok out →
        (renderAll (sampleFrames video fps events) out).length =
            (sampleFrames video fps events).length ∧
          ((renderAll (sampleFrames video fps events) out).map
              (fun e => e.image_path.eventIdx)).Perm
            ((sampleFrames video fps events).map (fun m => m.idx + 1)) := by
  constructor
  · rw [sampleFrames, sampleFramesFrom_eq]
    rw [List.map_map]
    exact List.map_congr_left (fun p _ => rfl) |>.trans (List.map_id _)
  · intro out hrun
    rw [runBatches] at hrun
    have hperm := runBatchesFrom_ok_perm oracle
      (sampleFrames video fps events).length B hB hconf
      (sampleFrames video fps events).length 0 (by omega) out hrun
    rw [Nat.sub_zero, ← List.range_eq_range'] at hperm
    have hin : ∀ g ∈ out, g.image_index < (sampleFrames video fps events).length := by
      intro g hg
      have hmem : g.image_index ∈ out.map (fun g => g.image_index) :=
        List.mem_map_of_mem _ hg
      exact List.mem_range.mp (hperm.mem_iff.mp hmem)
    rw [renderAll_all_in_range _ out hin]
    constructor
    · rw [List.length_map]
      have hl := hperm.length_eq
      simpa using hl
    · rw [List.map_map]
      have hstep : (out.map ((fun e => e.image_path.eventIdx) ∘
          (fun g => renderGroup ((sampleFrames video fps events).getD g.image_index default) g))) =
          (out.map (fun g => g.image_index)).map
            (fun i => ((sampleFrames video fps events).getD i default).idx + 1) := by
        rw [List.map_map]
        exact List.map_congr_left (fun g _ => rfl)
      rw [hstep]
      have hfin := hperm.map
        (fun i => ((sampleFrames video fps events).getD i default).idx + 1)
      rw [range_map_getD (sampleFrames video fps events) (fun m => m.idx + 1)] at hfin
      exact hfin

/-- C7 witness: two events, both frames readable, both batches exhausted;
each surviving event yields exactly one enhanced event. -/
theorem c7_skip_and_density_witness :
    ((sampleFrames vid2 30 [ev0, ev1]).map (fun m => (m.idx, m.event)) =
        (enumFromN 0 [ev0, ev1]).filter (fun p => frameReadable vid2 30 p.2)) ∧
      ((renderAll (sampleFrames vid2 30 [ev0, ev1]) [⟨0, []⟩, ⟨1, []⟩]).length =
          (sampleFrames vid2 30 [ev0, ev1]).length ∧
        ((renderAll (sampleFrames vid2 30 [ev0, ev1]) [⟨0, []⟩, ⟨1, []⟩]).map
            (fun e => e.image_path.eventIdx)).Perm
          ((sampleFrames vid2 30 [ev0, ev1]).map (fun m => m.idx + 1))) :=
  ⟨(c7_skip_and_density vid2 30 [ev0, ev1] (fun _ => BatchOutcome.exhausted) 2
      (by decide) (by intro bs hbs gs hgs; simp at hgs)).1,
    (c7_skip_and_density vid2 30 [ev0, ev1] (fun _ => BatchOutcome.exhausted) 2
      (by decide) (by intro bs hbs gs hgs; simp at hgs)).2
      [⟨0, []⟩, ⟨1, []⟩] rfl⟩

end SafeEgypt
